import Mathlib

set_option maxRecDepth 10000

/-!
# Whack-A-Mole: verification of the game-session core

Shallow embedding of the game session state machine of `src/main.py`
(class `WhackAMoleGame`): the Classic-mode engine (`spawn_mole`,
`animate_mole_appear`, `hit_mole`, `animate_mole_disappear`, `hide_mole`,
`update_timer`, `reset_game`, `end_game`, `pause_game`, `resume_game`,
`start_game_classic`) and the Silver-mode engine (`start_silver_game`,
`pause_silver_game`, `update_silver_timer`, `spawn_silver_mole`,
`hit_silver_mole`, `level_up`, `end_silver_game`), together with the
confetti particle animation (`celebrate_high_score`, `animate_confetti`).

The tkinter event loop is modelled as a cooperative scheduler: `root.after d cb`
registers a pending task with an absolute due time `now + d` and a fresh
handle id; `root.after_cancel h` removes the task with handle `h` (a no-op on
an already-fired handle, as in Tcl).  The loop fires the pending task with
the least due time, ties broken by registration order (smaller id first).
Random draws (`random.randint` / `random.choice`) are supplied by an oracle
`rand : ℕ → _` consumed left to right; external effects that do not feed back
into game state (widget images, sounds, message boxes) are not tracked, while
observable collaborator calls (settings persistence, celebration invocation)
are recorded by counters.  Python attribute errors are tracked by a `raised`
flag: `celebrate_high_score` reads `self.celebration_sound`, an attribute
that is assigned nowhere in the program, which is modelled by the
`celebrationSound : Option Unit` field that no operation ever sets.
-/

namespace Whack

/-- A cell of the Classic 3×3 grid (`GRID_SIZE = 3`). -/
abbrev Cell := Fin 3 × Fin 3

/-- A mole slot of the Silver-mode 3×3 canvas (9 canvas items). -/
abbrev Slot := Fin 9

/-- `GAME_DURATION = 30` seconds. -/
def GAME_DURATION : ℕ := 30

/-- `DifficultyLevel` enum of the source. -/
inductive Difficulty
  | easy
  | medium
  | hard
deriving DecidableEq, Repr

/-- `MOLE_TIMES`: Easy→1500ms, Medium→1000ms, Hard→750ms. -/
def moleTimes : Difficulty → ℕ
  | .easy => 1500
  | .medium => 1000
  | .hard => 750

/-- Persistent high-score record: one best score per Classic difficulty plus
the Silver key (`self.high_scores` / `settings`, default 0 everywhere). -/
structure HighScores where
  easy : ℕ := 0
  medium : ℕ := 0
  hard : ℕ := 0
  silver : ℕ := 0
deriving DecidableEq, Repr

/-- Look up the record for a Classic difficulty key. -/
def HighScores.get (hs : HighScores) : Difficulty → ℕ
  | .easy => hs.easy
  | .medium => hs.medium
  | .hard => hs.hard

/-- Update the record for a Classic difficulty key. -/
def HighScores.setKey (hs : HighScores) : Difficulty → ℕ → HighScores
  | .easy, v => { hs with easy := v }
  | .medium, v => { hs with medium := v }
  | .hard, v => { hs with hard := v }

/-- A pending `root.after` task: handle id, absolute due time (ms), callback. -/
structure Task (Cb : Type) where
  id : ℕ
  due : ℕ
  cb : Cb
deriving DecidableEq, Repr

/-- Callbacks that Classic mode registers with the event loop. -/
inductive CCb
  | spawnMole
  | updateTimer
  | hideMole
  | appear (c : Cell) (frame : ℕ)
  | disappear (c : Cell) (frame : ℕ)
  | celebrate
deriving DecidableEq, Repr

/-- State of a Classic-mode session (fields of `WhackAMoleGame` that the
Classic engine reads or writes, plus the scheduler). -/
structure CState where
  score : ℕ
  timeLeft : ℕ
  paused : Bool
  difficulty : Difficulty
  moleButton : Option Cell
  timerTask : Option ℕ
  moleTask : Option ℕ
  pending : List (Task CCb)
  now : ℕ
  nextId : ℕ
  randIdx : ℕ
  highScores : HighScores
  persistedScores : HighScores
  persists : ℕ
  celebrationsInvoked : ℕ
  celebrationSound : Option Unit
  raised : Bool
  buttonsEnabled : Bool
  pauseButtonResume : Bool
deriving DecidableEq, Repr

/-- `self.root.after(d, cb)`: register a task, return its handle. -/
def after (d : ℕ) (cb : CCb) (s : CState) : CState × ℕ :=
  ({ s with pending := s.pending ++ [⟨s.nextId, s.now + d, cb⟩],
            nextId := s.nextId + 1 }, s.nextId)

/-- `self.root.after_cancel(h)`: remove the task with handle `h` (silent
no-op when no such task is pending, matching Tcl). -/
def afterCancel (h : ℕ) (s : CState) : CState :=
  { s with pending := s.pending.filter (fun t => decide (t.id ≠ h)) }

/-- `if self.x_task: self.root.after_cancel(self.x_task)` (handles are truthy
strings once assigned, `None` before). -/
def cancelTaskOpt : Option ℕ → CState → CState
  | none, s => s
  | some h, s => afterCancel h s

/-- `save_settings` (lines 153-169): writes the settings dict, including the
(shared) `high_scores` mapping, to `settings.json`.  Modelled as a snapshot
of the current records plus an invocation counter; the UI parts
(`apply_settings`, the confirmation message box) are external. -/
def save_settings (s : CState) : CState :=
  { s with persistedScores := s.highScores, persists := s.persists + 1 }

/-- `celebrate_high_score` (lines 705-728).  Its first statement plays
`self.celebration_sound`, an attribute never assigned anywhere in the
program, so in Python the call raises `AttributeError` before any confetti
is created.  The confetti loop itself is analysed separately over ℝ. -/
def celebrate_high_score (s : CState) : CState :=
  match s.celebrationSound with
  | none => { s with celebrationsInvoked := s.celebrationsInvoked + 1, raised := true }
  | some _ => { s with celebrationsInvoked := s.celebrationsInvoked + 1 }

/-- `end_game` (lines 640-657): disable the grid buttons; if the score beats
the record for the current difficulty, update it, persist, and schedule the
celebration after 500ms. -/
def end_game (s : CState) : CState :=
  let s1 := { s with buttonsEnabled := false }
  if s1.highScores.get s1.difficulty < s1.score then
    let s2 := { s1 with highScores := s1.highScores.setKey s1.difficulty s1.score }
    let s3 := save_settings s2
    (after 500 .celebrate s3).1
  else s1

/-- `update_timer` (lines 597-609): while unpaused with time left, decrement
and reschedule after 1000ms (cancelling the stored handle first); at zero run
`end_game`; otherwise (paused with time left) cancel and reschedule without
decrementing. -/
def update_timer (s : CState) : CState :=
  if s.paused = false ∧ 0 < s.timeLeft then
    let s1 := { s with timeLeft := s.timeLeft - 1 }
    let s2 := cancelTaskOpt s1.timerTask s1
    let p := after 1000 .updateTimer s2
    { p.1 with timerTask := some p.2 }
  else if s.timeLeft = 0 then
    end_game s
  else
    let s2 := cancelTaskOpt s.timerTask s
    let p := after 1000 .updateTimer s2
    { p.1 with timerTask := some p.2 }

/-- `animate_mole_appear` (lines 553-563): 3 appear frames at 100ms; on
completion, cancel the stored mole task and schedule `hide_mole` after the
difficulty lifetime (the self-timeout of the target). -/
def animate_mole_appear (c : Cell) (frame : ℕ) (s : CState) : CState :=
  if frame < 3 then
    (after 100 (.appear c (frame + 1)) s).1
  else
    let s1 := cancelTaskOpt s.moleTask s
    let p := after (moleTimes s1.difficulty) .hideMole s1
    { p.1 with moleTask := some p.2 }

/-- `animate_mole_disappear` (lines 582-588): 3 disappear frames at 100ms; on
completion, restore the empty-hole image and schedule `spawn_mole` after
100ms with an anonymous (untracked) handle. -/
def animate_mole_disappear (c : Cell) (frame : ℕ) (s : CState) : CState :=
  if frame < 3 then
    (after 100 (.disappear c (frame + 1)) s).1
  else
    (after 100 .spawnMole s).1

/-- `spawn_mole` (lines 535-551): guarded no-op when time is up or paused;
otherwise clear the board, pick a random cell, store it in
`self.mole_button`, start the appear animation, and store a new spawn task
(overwriting, not cancelling, the previous stored handle). -/
def spawn_mole (rand : ℕ → Cell) (s : CState) : CState :=
  if s.timeLeft = 0 ∨ s.paused = true then s
  else
    let c := rand s.randIdx
    let s1 := { s with randIdx := s.randIdx + 1, moleButton := some c }
    let s2 := animate_mole_appear c 0 s1
    let p := after (moleTimes s2.difficulty) .spawnMole s2
    { p.1 with moleTask := some p.2 }

/-- `hit_mole` (lines 565-580): while unpaused with time left, a click on the
cell currently referenced by `self.mole_button` increments the score, starts
the disappear animation, cancels the stored mole task, and stores a new
spawn task due in 100ms.  The reference `self.mole_button` is not cleared. -/
def hit_mole (c : Cell) (s : CState) : CState :=
  if s.paused = false ∧ 0 < s.timeLeft then
    if s.moleButton = some c then
      let s1 := { s with score := s.score + 1 }
      let s2 := animate_mole_disappear c 0 s1
      let s3 := cancelTaskOpt s2.moleTask s2
      let p := after 100 .spawnMole s3
      { p.1 with moleTask := some p.2 }
    else s
  else s

/-- `hide_mole` (lines 590-595): start the disappear animation for the
current mole and clear the reference; with no current mole, schedule a spawn
after 100ms. -/
def hide_mole (s : CState) : CState :=
  match s.moleButton with
  | some c =>
      let s1 := animate_mole_disappear c 0 s
      { s1 with moleButton := none }
  | none => (after 100 .spawnMole s).1

/-- `pause_game` (lines 659-668): only while time is left, set `paused`, flip
the button to Resume, and cancel the stored timer and mole tasks. -/
def pause_game (s : CState) : CState :=
  if 0 < s.timeLeft then
    let s1 := { s with paused := true, pauseButtonResume := true }
    let s2 := cancelTaskOpt s1.timerTask s1
    cancelTaskOpt s2.moleTask s2
  else s

/-- `resume_game` (lines 670-675): if paused, unpause, flip the button back,
then call `update_timer` and `spawn_mole` directly (synchronously). -/
def resume_game (rand : ℕ → Cell) (s : CState) : CState :=
  if s.paused = true then
    let s1 := { s with paused := false, pauseButtonResume := false }
    let s2 := update_timer s1
    spawn_mole rand s2
  else s

/-- `reset_game` (lines 621-638): zero the score, restore the duration,
unpause, re-enable the grid, cancel the stored timer and mole tasks, and
clear the mole reference. -/
def reset_game (s : CState) : CState :=
  let s1 := { s with score := 0, timeLeft := GAME_DURATION, paused := false,
                     buttonsEnabled := true }
  let s2 := cancelTaskOpt s1.timerTask s1
  let s3 := cancelTaskOpt s2.moleTask s2
  { s3 with moleButton := none }

/-- `start_game_classic` (lines 227-232): unpause, set the button to Pause,
then call `spawn_mole` and `update_timer` directly. -/
def start_game_classic (rand : ℕ → Cell) (s : CState) : CState :=
  let s1 := { s with paused := false, pauseButtonResume := false }
  let s2 := spawn_mole rand s1
  update_timer s2

/-- Dispatch a fired Classic callback. -/
def runCCb (rand : ℕ → Cell) : CCb → CState → CState
  | .spawnMole, s => spawn_mole rand s
  | .updateTimer, s => update_timer s
  | .hideMole, s => hide_mole s
  | .appear c f, s => animate_mole_appear c f s
  | .disappear c f, s => animate_mole_disappear c f s
  | .celebrate, s => celebrate_high_score s

/-- The pending task that fires next: least due time, ties broken by
registration order (smaller handle id). -/
def nextTask {Cb : Type} (l : List (Task Cb)) : Option (Task Cb) :=
  l.foldl
    (fun acc t =>
      match acc with
      | none => some t
      | some u => if t.due < u.due ∨ (t.due = u.due ∧ t.id < u.id) then some t else some u)
    none

/-- One step of the event loop: remove and run the next due task (identity
when nothing is pending). -/
def fireNext (rand : ℕ → Cell) (s : CState) : CState :=
  match nextTask s.pending with
  | none => s
  | some t =>
      runCCb rand t.cb
        { s with pending := s.pending.filter (fun u => decide (u.id ≠ t.id)), now := t.due }

/-- External events a Classic session can process: the loop firing a due
task, a grid click (delivered only while the grid is enabled), the
pause/resume button (dispatching on its currently configured command), and
the reset button. -/
inductive CEv
  | fire
  | click (c : Cell)
  | pauseBtn
  | resetBtn

/-- Process one Classic event. -/
def cstep (rand : ℕ → Cell) : CEv → CState → CState
  | .fire, s => fireNext rand s
  | .click c, s => if s.buttonsEnabled = true then hit_mole c s else s
  | .pauseBtn, s => if s.pauseButtonResume = true then resume_game rand s else pause_game s
  | .resetBtn, s => reset_game s

/-- Process a list of Classic events in order. -/
def crun (rand : ℕ → Cell) (s : CState) : List CEv → CState
  | [] => s
  | e :: es => crun rand (cstep rand e s) es

/-- The session state set up by `start_classic_mode` (lines 212-225) just
before `start_game_classic` runs: fresh score and clock, default Medium
difficulty, no tasks, no mole.  `celebrationSound` is `none` because
`self.celebration_sound` is assigned nowhere in the program. -/
def classicInit0 : CState :=
  { score := 0, timeLeft := GAME_DURATION, paused := false, difficulty := .medium,
    moleButton := none, timerTask := none, moleTask := none, pending := [],
    now := 0, nextId := 0, randIdx := 0, highScores := {}, persistedScores := {},
    persists := 0, celebrationsInvoked := 0, celebrationSound := none,
    raised := false, buttonsEnabled := true, pauseButtonResume := false }

/-- A freshly started Classic session (`start_classic_mode` then
`start_game_classic`). -/
def classicStart (rand : ℕ → Cell) : CState :=
  start_game_classic rand classicInit0

/-- The deterministic cell oracle used for concrete traces. -/
def crand : ℕ → Cell := fun _ => (0, 0)

/-- Count the pending `spawn_mole` tasks. -/
def spawnTasks (l : List (Task CCb)) : ℕ :=
  (l.filter (fun t => decide (t.cb = CCb.spawnMole))).length

/-- Count the pending `update_timer` tasks. -/
def tickTasksC (l : List (Task CCb)) : ℕ :=
  (l.filter (fun t => decide (t.cb = CCb.updateTimer))).length

/-- Count the pending celebration tasks. -/
def celebrateTasks (l : List (Task CCb)) : ℕ :=
  (l.filter (fun t => decide (t.cb = CCb.celebrate))).length

/-! ## Silver (Progressive) mode -/

/-- Callbacks that Silver mode registers with the event loop.  The disappear
animation counts its frame down and hides the mole after frame 0, so its
frame is an integer (the Python call chain ends at `-1`). -/
inductive SCb
  | tick
  | spawn
  | sappear (m : Slot) (frame : ℕ)
  | sdisappear (m : Slot) (frame : ℤ)
deriving DecidableEq, Repr

/-- State of a Silver-mode session.  `visible` tracks canvas items whose
state is NORMAL; `bound` tracks moles whose click handler has been attached
by `tag_bind` (attaching twice keeps one handler).  `difficultyVar` records
whether the attribute `self.difficulty` (a StringVar) exists: it is assigned
only by `show_settings` (line 131) and `start_classic_mode` (line 216), so
it is absent (`none`) in a session where Silver mode was entered directly
from the menu without ever opening the settings window or playing Classic. -/
structure SState where
  score : ℕ
  level : ℕ
  timeLeft : ℕ
  paused : Bool
  moleTime : ℕ
  pending : List (Task SCb)
  now : ℕ
  nextId : ℕ
  randIdx : ℕ
  visible : List Slot
  bound : List Slot
  difficultyVar : Option Unit
  highScores : HighScores
  persistedScores : HighScores
  persists : ℕ
  celebrationsInvoked : ℕ
  celebrationSound : Option Unit
  raised : Bool
  startEnabled : Bool
  pauseEnabled : Bool
deriving DecidableEq, Repr

/-- `self.root.after(d, cb)` in Silver mode (no handle is ever stored). -/
def afterS (d : ℕ) (cb : SCb) (s : SState) : SState :=
  { s with pending := s.pending ++ [⟨s.nextId, s.now + d, cb⟩],
           nextId := s.nextId + 1 }

/-- Add a slot to a slot set once. -/
def insertSlot (m : Slot) (l : List Slot) : List Slot :=
  if m ∈ l then l else m :: l

/-- `level_up` (lines 404-407): increment the level and shorten the mole
lifetime by 100ms with a 500ms floor. -/
def level_up (s : SState) : SState :=
  { s with level := s.level + 1, moleTime := max 500 (s.moleTime - 100) }

/-- `save_settings` (lines 153-164) as invoked from Silver mode.  Its first
statement reads `self.difficulty.get()` (line 154); when the difficulty
StringVar was never assigned (Silver entered directly from the menu), that
attribute access raises `AttributeError` before `save_settings_to_file`
(line 158) runs, so nothing is persisted.  Otherwise the settings dict,
including the shared `high_scores` mapping, is written.  Returns the
resulting state together with whether the call raised, so that a caller can
propagate the exception. -/
def ssave_settings (s : SState) : SState × Bool :=
  match s.difficultyVar with
  | none => ({ s with raised := true }, true)
  | some _ =>
      ({ s with persistedScores := s.highScores, persists := s.persists + 1 }, false)

/-- `celebrate_high_score` as invoked (synchronously) from Silver mode; see
`celebrate_high_score` for the unassigned-attribute raise. -/
def scelebrate (s : SState) : SState :=
  match s.celebrationSound with
  | none => { s with celebrationsInvoked := s.celebrationsInvoked + 1, raised := true }
  | some _ => { s with celebrationsInvoked := s.celebrationsInvoked + 1 }

/-- `end_silver_game` (lines 409-422): stop the game (`paused := True`,
swap the button states); on a new record for the Silver key (default 0),
update the in-memory record, call `save_settings`, and then invoke the
celebration.  When `save_settings` raises (no difficulty StringVar), the
exception propagates out of `end_silver_game` and `celebrate_high_score`
is never reached. -/
def end_silver_game (s : SState) : SState :=
  let s1 := { s with paused := true, startEnabled := true, pauseEnabled := false }
  if s1.highScores.silver < s1.score then
    let s2 := { s1 with highScores := { s1.highScores with silver := s1.score } }
    let p := ssave_settings s2
    if p.2 = true then p.1 else scelebrate p.1
  else s1

/-- `update_silver_timer` (lines 355-361): while unpaused with time left,
decrement and reschedule after 1000ms (no handle kept, nothing cancelled);
at zero run `end_silver_game`; otherwise do nothing. -/
def update_silver_timer (s : SState) : SState :=
  if s.paused = false ∧ 0 < s.timeLeft then
    let s1 := { s with timeLeft := s.timeLeft - 1 }
    afterS 1000 .tick s1
  else if s.timeLeft = 0 then
    end_silver_game s
  else s

/-- `animate_mole_appear` of Silver mode (lines 378-384): 4 frames at 50ms,
each showing the mole; after the last frame, bind the click handler. -/
def animate_silver_appear (m : Slot) (frame : ℕ) (s : SState) : SState :=
  if frame < 4 then
    let s1 := { s with visible := insertSlot m s.visible }
    afterS 50 (.sappear m (frame + 1)) s1
  else
    { s with bound := insertSlot m s.bound }

/-- `animate_mole_disappear` of Silver mode (lines 397-402): frames counted
down at 50ms; below 0, hide the canvas item. -/
def animate_silver_disappear (m : Slot) (frame : ℤ) (s : SState) : SState :=
  if 0 ≤ frame then
    afterS 50 (.sdisappear m (frame - 1)) s
  else
    { s with visible := s.visible.filter (fun v => decide (v ≠ m)) }

/-- `hit_silver_mole` (lines 386-395): while unpaused with time left, any
delivered mole click increments the score, starts the disappear animation
from the last frame, and levels up when the score is a multiple of 10.  No
reference to the clicked mole is checked or cleared. -/
def hit_silver_mole (m : Slot) (s : SState) : SState :=
  if s.paused = false ∧ 0 < s.timeLeft then
    let s1 := { s with score := s.score + 1 }
    let s2 := animate_silver_disappear m 3 s1
    if s2.score % 10 = 0 then level_up s2 else s2
  else s

/-- `spawn_silver_mole` (lines 363-376): guarded no-op when paused or time is
up; otherwise hide every mole, pick one at random, animate it in, and
schedule the next spawn after the current lifetime (untracked handle). -/
def spawn_silver_mole (rand : ℕ → Slot) (s : SState) : SState :=
  if s.paused = true ∨ s.timeLeft = 0 then s
  else
    let s1 := { s with visible := [] }
    let m := rand s1.randIdx
    let s2 := { s1 with randIdx := s1.randIdx + 1 }
    let s3 := animate_silver_appear m 0 s2
    afterS s3.moleTime .spawn s3

/-- `pause_silver_game` (lines 345-353): toggle; pausing only flips the flag
(nothing cancelled), resuming flips it back and calls `update_silver_timer`
and `spawn_silver_mole` directly. -/
def pause_silver_game (rand : ℕ → Slot) (s : SState) : SState :=
  if s.paused = false then
    { s with paused := true }
  else
    let s1 := { s with paused := false }
    let s2 := update_silver_timer s1
    spawn_silver_mole rand s2

/-- `start_silver_game` (lines 332-343): reset score/level/clock/lifetime,
swap the button states, then call `update_silver_timer` and
`spawn_silver_mole` directly. -/
def start_silver_game (rand : ℕ → Slot) (s : SState) : SState :=
  let s1 := { s with score := 0, level := 1, timeLeft := GAME_DURATION,
                     paused := false, moleTime := 1500,
                     startEnabled := false, pauseEnabled := true }
  let s2 := update_silver_timer s1
  spawn_silver_mole rand s2

/-- Dispatch a fired Silver callback. -/
def runSCb (rand : ℕ → Slot) : SCb → SState → SState
  | .tick, s => update_silver_timer s
  | .spawn, s => spawn_silver_mole rand s
  | .sappear m f, s => animate_silver_appear m f s
  | .sdisappear m f, s => animate_silver_disappear m f s

/-- One step of the event loop in Silver mode. -/
def fireNextS (rand : ℕ → Slot) (s : SState) : SState :=
  match nextTask s.pending with
  | none => s
  | some t =>
      runSCb rand t.cb
        { s with pending := s.pending.filter (fun u => decide (u.id ≠ t.id)), now := t.due }

/-- External events a Silver session can process: a loop step, a click on a
mole (deliverable only while its canvas item is visible and its handler
bound), and the Start / Pause buttons (active only while enabled). -/
inductive SEv
  | fire
  | click (m : Slot)
  | pauseBtn
  | startBtn

/-- Process one Silver event. -/
def sstep (rand : ℕ → Slot) : SEv → SState → SState
  | .fire, s => fireNextS rand s
  | .click m, s => if m ∈ s.bound ∧ m ∈ s.visible then hit_silver_mole m s else s
  | .pauseBtn, s => if s.pauseEnabled = true then pause_silver_game rand s else s
  | .startBtn, s => if s.startEnabled = true then start_silver_game rand s else s

/-- Process a list of Silver events in order. -/
def srun (rand : ℕ → Slot) (s : SState) : List SEv → SState
  | [] => s
  | e :: es => srun rand (sstep rand e s) es

/-- The session state set up by `start_silver_mode` (lines 234-247) and
`create_silver_controls` just before `start_silver_game` runs, in a process
where the difficulty StringVar already exists (the settings window was
opened, or Classic mode was played, earlier in the same process), so that
`save_settings` can run. -/
def silverInit0 : SState :=
  { score := 0, level := 1, timeLeft := GAME_DURATION, paused := false,
    moleTime := 1500, pending := [], now := 0, nextId := 0, randIdx := 0,
    visible := [], bound := [], difficultyVar := some (), highScores := {},
    persistedScores := {}, persists := 0, celebrationsInvoked := 0,
    celebrationSound := none, raised := false, startEnabled := true,
    pauseEnabled := false }

/-- The same session state in a fresh process where the player entered
Silver mode directly from the menu: `self.difficulty` was never assigned. -/
def silverInitFresh : SState :=
  { silverInit0 with difficultyVar := none }

/-- A freshly started Silver session. -/
def silverStart (rand : ℕ → Slot) : SState :=
  start_silver_game rand silverInit0

/-- The deterministic slot oracle used for concrete traces. -/
def srand : ℕ → Slot := fun _ => 0

/-- Count the pending Silver tick tasks. -/
def tickTasksS (l : List (Task SCb)) : ℕ :=
  (l.filter (fun t => decide (t.cb = SCb.tick))).length

/-- Count the pending Silver spawn tasks. -/
def spawnTasksS (l : List (Task SCb)) : ℕ :=
  (l.filter (fun t => decide (t.cb = SCb.spawn))).length

/-! ## Remaining definitions: observation views, sample states, invariants,
and the confetti simulation -/

/-- The part of a Classic session that must be frozen while paused:
score, remaining time, and the pause flag itself. -/
def coreView (s : CState) : ℕ × ℕ × Bool := (s.score, s.timeLeft, s.paused)

/-- The part of a Silver session that must be frozen while paused. -/
def sview (s : SState) : ℕ × ℕ := (s.score, s.timeLeft)

/-- Level and lifetime of a Silver session. -/
def lvlView (s : SState) : ℕ × ℕ := (s.level, s.moleTime)

/-- Remaining time and clock of a Classic session. -/
def tnView (s : CState) : ℕ × ℕ := (s.timeLeft, s.now)

/-- The Progressive-difficulty invariant: the level is at least 1 and the
lifetime is `max 500 (1500 - 100·(level-1))` ms. -/
def sinv (s : SState) : Prop :=
  1 ≤ s.level ∧ s.moleTime = max 500 (1500 - 100 * (s.level - 1))

/-- A reachable paused Classic session: start, then press Pause. -/
def cPausedSample : CState := crun crand (classicStart crand) [CEv.pauseBtn]

/-- A reachable paused Silver session: start, then press Pause. -/
def sPausedSample : SState := srun srand (silverStart srand) [SEv.pauseBtn]

/-- A Classic session at the end of a round, final score 7 against a
recorded best of 5 for the current (Medium) difficulty. -/
def cEndBeat : CState :=
  { classicInit0 with score := 7, timeLeft := 0, highScores := { medium := 5 } }

/-- A Classic session at the end of a round, final score 4 against a
recorded best of 5. -/
def cEndMiss : CState :=
  { classicInit0 with score := 4, timeLeft := 0, highScores := { medium := 5 } }

/-- A fresh Silver-only session (no difficulty StringVar) at the end of a
round, final score 7 against a recorded best of 5 for the Silver key. -/
def sEndBeat : SState :=
  { silverInitFresh with score := 7, timeLeft := 0, highScores := { silver := 5 } }

/-- A Silver session at the end of a round, final score 7 against a
recorded best of 5, in a process where the difficulty StringVar exists. -/
def sEndBeatSettled : SState :=
  { silverInit0 with score := 7, timeLeft := 0, highScores := { silver := 5 } }

/-- A fresh Silver-only session at the end of a round, final score 4
against a recorded best of 5. -/
def sEndMiss : SState :=
  { silverInitFresh with score := 4, timeLeft := 0, highScores := { silver := 5 } }

/-- A Classic session whose clock has run out. -/
def cTimeUp : CState := { classicInit0 with timeLeft := 0 }

/-- A Silver session whose clock has run out. -/
def sTimeUp : SState := { silverInit0 with timeLeft := 0 }

/-- A full Silver round, replayed deterministically: the four appear frames
of the first mole fire, the mole is hit once (score 1), and the loop then
runs until the tick that finds `time_left = 0` calls `end_silver_game`,
which beats the record 0 and invokes the celebration. -/
def silverRoundEvs : List SEv :=
  List.replicate 4 SEv.fire ++ [SEv.click 0] ++ List.replicate 130 SEv.fire

/-! ### The confetti simulation (over exact reals)

`celebrate_high_score` and `animate_confetti` (lines 705-746) compute with
Python floats and `math.sin`/`math.cos`; they are embedded over ℝ with exact
arithmetic.  `random.uniform`/`random.randint`/`random.choice` draws are
supplied by an oracle `draw`; the range guarantees of the library become
hypotheses on the oracle. -/

/-- Python float `%` with the positive right operand used by the source:
`a % b = a - b·⌊a/b⌋`. -/
noncomputable def pymod (a b : ℝ) : ℝ := a - b * (⌊a / b⌋ : ℝ)

/-- Line 732 with the wrap of line 736: the next x of a confetti particle,
`(x + speed·cos(angle)·sin(frame·0.1)) mod W`. -/
noncomputable def confetti_new_x (W x angle speed : ℝ) (frame : ℕ) : ℝ :=
  pymod (x + speed * Real.cos angle * Real.sin ((frame : ℝ) * 0.1)) W

/-- Line 733: the next y of a confetti particle,
`y - speed·sin(angle)·frame + 0.5·frame^1.5`. -/
noncomputable def confetti_new_y (y angle speed : ℝ) (frame : ℕ) : ℝ :=
  y - speed * Real.sin angle * (frame : ℝ) + 0.5 * (frame : ℝ) ^ (1.5 : ℝ)

/-- `animate_confetti` (lines 730-746), returning the frame count at which
the particle is deleted: before frame 200 it computes the next position and
deletes the particle as soon as the new y exceeds the viewport height `H`;
at frame 200 it deletes the particle unconditionally. -/
noncomputable def animate_confetti (W H angle speed : ℝ) (x y : ℝ) (frame : ℕ) : ℕ :=
  if frame < 200 then
    if H < confetti_new_y y angle speed frame then frame
    else
      animate_confetti W H angle speed (confetti_new_x W x angle speed frame)
        (confetti_new_y y angle speed frame) (frame + 1)
  else frame
termination_by 200 - frame

/-- The y-trajectory generated by line 733 from position `y0` at frame
`f0`: `k` steps of `confetti_new_y`. -/
noncomputable def confettiYFrom (angle speed y0 : ℝ) (f0 : ℕ) : ℕ → ℝ
  | 0 => y0
  | k + 1 => confetti_new_y (confettiYFrom angle speed y0 f0 k) angle speed (f0 + k)

/-- One iteration of the creation loop of `celebrate_high_score` draws an
x-origin (`randint(0, width)`), a color (choice of 6), a size
(`randint(5, 15)`), an angle (`uniform(-π/2, π/2)`) and a speed
(`uniform(10, 20)`). -/
structure ConfettiDraw where
  x : ℕ
  color : Fin 6
  size : ℕ
  angle : ℝ
  speed : ℝ

/-- A confetti particle as created at lines 716-725: position, trajectory
parameters, size and color. -/
structure ConfettiParticle where
  x : ℝ
  y : ℝ
  angle : ℝ
  speed : ℝ
  size : ℕ
  color : Fin 6

/-- The creation loop of `celebrate_high_score` (lines 716-725): 200
particles, each starting on the bottom edge (`y = H`) at the drawn x. -/
noncomputable def celebrate_confetti (H : ℝ) (draw : ℕ → ConfettiDraw) :
    List ConfettiParticle :=
  (List.range 200).map (fun i =>
    { x := ((draw i).x : ℝ), y := H, angle := (draw i).angle,
      speed := (draw i).speed, size := (draw i).size, color := (draw i).color })

/-- The concrete draw oracle used by the confetti witness. -/
def drawSample : ℕ → ConfettiDraw :=
  fun _ => { x := 0, color := 0, size := 10, angle := 0, speed := 12 }

/-! ## Helper lemmas: what each operation leaves untouched -/

lemma coreView_cancelTaskOpt (o : Option ℕ) (s : CState) :
    coreView (cancelTaskOpt o s) = coreView s := by
  cases o <;> rfl

lemma coreView_end_game (s : CState) : coreView (end_game s) = coreView s := by
  simp only [end_game, save_settings, after]
  split <;> rfl

lemma coreView_appear (c : Cell) (f : ℕ) (s : CState) :
    coreView (animate_mole_appear c f s) = coreView s := by
  simp only [animate_mole_appear, after]
  split
  · rfl
  · exact coreView_cancelTaskOpt s.moleTask s

lemma coreView_disappear (c : Cell) (f : ℕ) (s : CState) :
    coreView (animate_mole_disappear c f s) = coreView s := by
  simp only [animate_mole_disappear, after]
  split <;> rfl

lemma coreView_celebrate (s : CState) :
    coreView (celebrate_high_score s) = coreView s := by
  rcases h : s.celebrationSound with _ | u <;> simp [celebrate_high_score, h, coreView]

lemma coreView_hide (s : CState) : coreView (hide_mole s) = coreView s := by
  rcases h : s.moleButton with _ | c <;> simp only [hide_mole, h]
  · rfl
  · exact coreView_disappear c 0 s

lemma spawn_mole_paused (rand : ℕ → Cell) (s : CState) (h : s.paused = true) :
    spawn_mole rand s = s := by
  unfold spawn_mole
  rw [if_pos (Or.inr h)]

lemma coreView_update_timer_paused (s : CState) (h : s.paused = true) :
    coreView (update_timer s) = coreView s := by
  unfold update_timer
  rw [if_neg (by simp [h])]
  split
  · exact coreView_end_game s
  · exact coreView_cancelTaskOpt s.timerTask s

lemma coreView_runCCb_paused (rand : ℕ → Cell) (cb : CCb) (u : CState)
    (hu : u.paused = true) : coreView (runCCb rand cb u) = coreView u := by
  cases cb with
  | spawnMole => exact congrArg coreView (spawn_mole_paused rand u hu)
  | updateTimer => exact coreView_update_timer_paused u hu
  | hideMole => exact coreView_hide u
  | appear c f => exact coreView_appear c f u
  | disappear c f => exact coreView_disappear c f u
  | celebrate => exact coreView_celebrate u

lemma coreView_fireNext_paused (rand : ℕ → Cell) (s : CState) (h : s.paused = true) :
    coreView (fireNext rand s) = coreView s := by
  unfold fireNext
  split
  · rfl
  · rename_i t heq
    apply coreView_runCCb_paused
    exact h

lemma sview_scelebrate (s : SState) : sview (scelebrate s) = sview s := by
  rcases h : s.celebrationSound with _ | u <;> simp [scelebrate, h, sview]

lemma sview_ssave (s : SState) : sview (ssave_settings s).1 = sview s := by
  rcases h : s.difficultyVar with _ | u <;> simp [ssave_settings, h, sview]

lemma paused_scelebrate (s : SState) : (scelebrate s).paused = s.paused := by
  rcases h : s.celebrationSound with _ | u <;> simp [scelebrate, h]

lemma paused_ssave (s : SState) : (ssave_settings s).1.paused = s.paused := by
  rcases h : s.difficultyVar with _ | u <;> simp [ssave_settings, h]

lemma sview_end_silver (s : SState) : sview (end_silver_game s) = sview s := by
  simp only [end_silver_game]
  split
  · split
    · exact sview_ssave _
    · exact (sview_scelebrate _).trans (sview_ssave _)
  · rfl

lemma paused_end_silver (s : SState) : (end_silver_game s).paused = true := by
  simp only [end_silver_game]
  split
  · split
    · exact paused_ssave _
    · exact (paused_scelebrate _).trans (paused_ssave _)
  · rfl

lemma sview_appear (m : Slot) (f : ℕ) (s : SState) :
    sview (animate_silver_appear m f s) = sview s := by
  simp only [animate_silver_appear, afterS]
  split <;> rfl

lemma paused_appear (m : Slot) (f : ℕ) (s : SState) :
    (animate_silver_appear m f s).paused = s.paused := by
  simp only [animate_silver_appear, afterS]
  split <;> rfl

lemma sview_disappear (m : Slot) (f : ℤ) (s : SState) :
    sview (animate_silver_disappear m f s) = sview s := by
  simp only [animate_silver_disappear, afterS]
  split <;> rfl

lemma paused_disappear (m : Slot) (f : ℤ) (s : SState) :
    (animate_silver_disappear m f s).paused = s.paused := by
  simp only [animate_silver_disappear, afterS]
  split <;> rfl

lemma spawn_silver_paused (rand : ℕ → Slot) (s : SState) (h : s.paused = true) :
    spawn_silver_mole rand s = s := by
  unfold spawn_silver_mole
  rw [if_pos (Or.inl h)]

lemma silver_tick_paused (s : SState) (h : s.paused = true) :
    sview (update_silver_timer s) = sview s ∧ (update_silver_timer s).paused = true := by
  unfold update_silver_timer
  rw [if_neg (by simp [h])]
  split
  · exact ⟨sview_end_silver s, paused_end_silver s⟩
  · exact ⟨rfl, h⟩

lemma sview_runSCb_paused (rand : ℕ → Slot) (cb : SCb) (u : SState)
    (hu : u.paused = true) :
    sview (runSCb rand cb u) = sview u ∧ (runSCb rand cb u).paused = true := by
  cases cb with
  | tick => exact silver_tick_paused u hu
  | spawn =>
      have e : runSCb rand SCb.spawn u = u := spawn_silver_paused rand u hu
      exact ⟨congrArg sview e, by rw [e]; exact hu⟩
  | sappear m f => exact ⟨sview_appear m f u, (paused_appear m f u).trans hu⟩
  | sdisappear m f => exact ⟨sview_disappear m f u, (paused_disappear m f u).trans hu⟩

lemma silver_fireNext_paused (rand : ℕ → Slot) (s : SState) (h : s.paused = true) :
    sview (fireNextS rand s) = sview s ∧ (fireNextS rand s).paused = true := by
  unfold fireNextS
  split
  · exact ⟨rfl, h⟩
  · rename_i t heq
    apply sview_runSCb_paused
    exact h

lemma tickTasksC_append_celebrate (l : List (Task CCb)) (t : Task CCb)
    (h : t.cb = CCb.celebrate) :
    tickTasksC (l ++ [t]) = tickTasksC l := by
  simp [tickTasksC, List.filter_append, h]

lemma tickTasksC_end_game (s : CState) :
    tickTasksC (end_game s).pending = tickTasksC s.pending := by
  simp only [end_game, save_settings, after]
  split
  · exact tickTasksC_append_celebrate s.pending _ rfl
  · rfl

lemma tnView_cancelTaskOpt (o : Option ℕ) (s : CState) :
    tnView (cancelTaskOpt o s) = tnView s := by
  cases o <;> rfl

lemma tnView_appear (c : Cell) (f : ℕ) (s : CState) :
    tnView (animate_mole_appear c f s) = tnView s := by
  simp only [animate_mole_appear, after]
  split
  · rfl
  · exact tnView_cancelTaskOpt s.moleTask s

lemma tnView_spawn_mole (rand : ℕ → Cell) (s : CState) :
    tnView (spawn_mole rand s) = tnView s := by
  unfold spawn_mole
  split
  · rfl
  · apply tnView_appear

lemma timeLeft_spawn_mole (rand : ℕ → Cell) (s : CState) :
    (spawn_mole rand s).timeLeft = s.timeLeft :=
  congrArg (fun p => p.1) (tnView_spawn_mole rand s)

lemma now_spawn_mole (rand : ℕ → Cell) (s : CState) :
    (spawn_mole rand s).now = s.now :=
  congrArg (fun p => p.2) (tnView_spawn_mole rand s)

lemma timeLeft_spawn_silver (rand : ℕ → Slot) (s : SState) :
    (spawn_silver_mole rand s).timeLeft = s.timeLeft := by
  have h := sview_appear (rand s.randIdx) 0 { s with visible := [], randIdx := s.randIdx + 1 }
  unfold spawn_silver_mole
  split
  · rfl
  · exact congrArg (fun p => p.2) h

lemma now_spawn_silver (rand : ℕ → Slot) (s : SState) :
    (spawn_silver_mole rand s).now = s.now := by
  unfold spawn_silver_mole
  split
  · rfl
  · show (afterS _ _ (animate_silver_appear _ 0 _)).now = s.now
    rw [show ∀ (d : ℕ) (cb : SCb) (u : SState), (afterS d cb u).now = u.now
          from fun d cb u => rfl]
    unfold animate_silver_appear
    split <;> rfl

lemma lvlView_scelebrate (s : SState) : lvlView (scelebrate s) = lvlView s := by
  rcases h : s.celebrationSound with _ | u <;> simp [scelebrate, h, lvlView]

lemma lvlView_ssave (s : SState) : lvlView (ssave_settings s).1 = lvlView s := by
  rcases h : s.difficultyVar with _ | u <;> simp [ssave_settings, h, lvlView]

lemma lvlView_end_silver (s : SState) : lvlView (end_silver_game s) = lvlView s := by
  simp only [end_silver_game]
  split
  · split
    · exact lvlView_ssave _
    · exact (lvlView_scelebrate _).trans (lvlView_ssave _)
  · rfl

lemma lvlView_tick (s : SState) :
    lvlView (update_silver_timer s) = lvlView s := by
  unfold update_silver_timer
  split
  · rfl
  · split
    · exact lvlView_end_silver s
    · rfl

lemma lvlView_appear (m : Slot) (f : ℕ) (s : SState) :
    lvlView (animate_silver_appear m f s) = lvlView s := by
  simp only [animate_silver_appear, afterS]
  split <;> rfl

lemma lvlView_disappear (m : Slot) (f : ℤ) (s : SState) :
    lvlView (animate_silver_disappear m f s) = lvlView s := by
  simp only [animate_silver_disappear, afterS]
  split <;> rfl

lemma lvlView_spawn (rand : ℕ → Slot) (s : SState) :
    lvlView (spawn_silver_mole rand s) = lvlView s := by
  unfold spawn_silver_mole
  split
  · rfl
  · apply lvlView_appear

lemma sinv_of_lvlView {s t : SState} (h : lvlView t = lvlView s) (hs : sinv s) :
    sinv t := by
  obtain ⟨h1, h2⟩ := hs
  have e1 : t.level = s.level := congrArg (fun p => p.1) h
  have e2 : t.moleTime = s.moleTime := congrArg (fun p => p.2) h
  exact ⟨e1 ▸ h1, by rw [e1, e2]; exact h2⟩

lemma sinv_level_up (s : SState) (hs : sinv s) : sinv (level_up s) := by
  obtain ⟨h1, h2⟩ := hs
  refine ⟨Nat.le_succ_of_le h1, ?_⟩
  show max 500 (s.moleTime - 100) = max 500 (1500 - 100 * (s.level + 1 - 1))
  omega

lemma sinv_hit (m : Slot) (s : SState) (hs : sinv s) :
    sinv (hit_silver_mole m s) := by
  unfold hit_silver_mole
  split
  · dsimp only
    split
    · apply sinv_level_up
      exact sinv_of_lvlView (lvlView_disappear m 3 _) hs
    · exact sinv_of_lvlView (lvlView_disappear m 3 _) hs
  · exact hs

lemma sinv_start (rand : ℕ → Slot) (s : SState) :
    sinv (start_silver_game rand s) := by
  unfold start_silver_game
  apply sinv_of_lvlView (lvlView_spawn rand _)
  apply sinv_of_lvlView (lvlView_tick _)
  refine ⟨le_refl 1, ?_⟩
  show (1500 : ℕ) = max 500 (1500 - 100 * (1 - 1))
  norm_num

lemma sinv_pause (rand : ℕ → Slot) (s : SState) (hs : sinv s) :
    sinv (pause_silver_game rand s) := by
  unfold pause_silver_game
  split
  · exact sinv_of_lvlView rfl hs
  · apply sinv_of_lvlView (lvlView_spawn rand _)
    exact sinv_of_lvlView (lvlView_tick _) hs

lemma sinv_runSCb (rand : ℕ → Slot) (cb : SCb) (u : SState) (hu : sinv u) :
    sinv (runSCb rand cb u) := by
  cases cb with
  | tick => exact sinv_of_lvlView (lvlView_tick u) hu
  | spawn => exact sinv_of_lvlView (lvlView_spawn rand u) hu
  | sappear m f => exact sinv_of_lvlView (lvlView_appear m f u) hu
  | sdisappear m f => exact sinv_of_lvlView (lvlView_disappear m f u) hu

lemma sinv_sstep (rand : ℕ → Slot) (e : SEv) (s : SState) (hs : sinv s) :
    sinv (sstep rand e s) := by
  cases e with
  | fire =>
      show sinv (fireNextS rand s)
      unfold fireNextS
      split
      · exact hs
      · apply sinv_runSCb
        exact sinv_of_lvlView rfl hs
  | click m =>
      show sinv (if m ∈ s.bound ∧ m ∈ s.visible then hit_silver_mole m s else s)
      split
      · exact sinv_hit m s hs
      · exact hs
  | pauseBtn =>
      show sinv (if s.pauseEnabled = true then pause_silver_game rand s else s)
      split
      · exact sinv_pause rand s hs
      · exact hs
  | startBtn =>
      show sinv (if s.startEnabled = true then start_silver_game rand s else s)
      split
      · exact sinv_start rand s
      · exact hs

lemma sinv_srun (rand : ℕ → Slot) (evs : List SEv) (s : SState) (hs : sinv s) :
    sinv (srun rand s evs) := by
  induction evs generalizing s with
  | nil => exact hs
  | cons e es ih => exact ih (sstep rand e s) (sinv_sstep rand e s hs)

lemma scelebrate_fields (s : SState) :
    (scelebrate s).highScores = s.highScores ∧
    (scelebrate s).persistedScores = s.persistedScores ∧
    (scelebrate s).persists = s.persists ∧
    (scelebrate s).celebrationsInvoked = s.celebrationsInvoked + 1 ∧
    (scelebrate s).pending = s.pending := by
  rcases h : s.celebrationSound with _ | u <;> simp [scelebrate, h]

lemma pending_ssave (s : SState) : (ssave_settings s).1.pending = s.pending := by
  rcases h : s.difficultyVar with _ | u <;> simp [ssave_settings, h]

lemma end_silver_pending (s : SState) :
    (end_silver_game s).pending = s.pending := by
  simp only [end_silver_game]
  split
  · split
    · exact pending_ssave _
    · exact ((scelebrate_fields _).2.2.2.2).trans (pending_ssave _)
  · rfl

lemma update_timer_run (s : CState) (h1 : s.paused = false) (h2 : 0 < s.timeLeft) :
    (update_timer s).timeLeft = s.timeLeft - 1 ∧
    (update_timer s).now = s.now ∧
    (update_timer s).paused = s.paused := by
  unfold update_timer
  rw [if_pos ⟨h1, h2⟩]
  rcases ht : s.timerTask with _ | t <;>
    simp [cancelTaskOpt, afterCancel, after, ht]

lemma pause_game_run (s : CState) (h2 : 0 < s.timeLeft) :
    (pause_game s).paused = true ∧
    (pause_game s).timeLeft = s.timeLeft ∧
    (pause_game s).now = s.now := by
  unfold pause_game
  rw [if_pos h2]
  rcases ht : s.timerTask with _ | t <;> rcases hm : s.moleTask with _ | m <;>
    simp [cancelTaskOpt, afterCancel, ht, hm]

lemma silver_tick_run (s : SState) (h1 : s.paused = false) (h2 : 0 < s.timeLeft) :
    (update_silver_timer s).timeLeft = s.timeLeft - 1 ∧
    (update_silver_timer s).now = s.now ∧
    (update_silver_timer s).paused = s.paused := by
  unfold update_silver_timer
  rw [if_pos ⟨h1, h2⟩]
  exact ⟨rfl, rfl, rfl⟩

lemma paused_spawn_mole (rand : ℕ → Cell) (s : CState) :
    (spawn_mole rand s).paused = s.paused := by
  unfold spawn_mole
  split
  · rfl
  · exact congrArg (fun p => p.2.2) (coreView_appear (rand s.randIdx) 0 _)

lemma paused_spawn_silver (rand : ℕ → Slot) (s : SState) :
    (spawn_silver_mole rand s).paused = s.paused := by
  unfold spawn_silver_mole
  split
  · rfl
  · exact paused_appear (rand s.randIdx) 0 _

lemma confettiYFrom_shift (angle speed y0 : ℝ) (f0 k : ℕ) :
    confettiYFrom angle speed (confetti_new_y y0 angle speed f0) (f0 + 1) k
      = confettiYFrom angle speed y0 f0 (k + 1) := by
  induction k with
  | zero => rfl
  | succ k ih =>
      show confetti_new_y (confettiYFrom angle speed
            (confetti_new_y y0 angle speed f0) (f0 + 1) k) angle speed (f0 + 1 + k)
          = confetti_new_y (confettiYFrom angle speed y0 f0 (k + 1)) angle speed
              (f0 + (k + 1))
      rw [ih, show f0 + 1 + k = f0 + (k + 1) from by omega]

lemma animate_confetti_char (W H angle speed : ℝ) :
    ∀ (n f0 : ℕ), 200 - f0 = n → ∀ (x y0 : ℝ), f0 ≤ 200 →
      f0 ≤ animate_confetti W H angle speed x y0 f0 ∧
      animate_confetti W H angle speed x y0 f0 ≤ 200 ∧
      (∀ k, f0 ≤ k → k < animate_confetti W H angle speed x y0 f0 →
         confetti_new_y (confettiYFrom angle speed y0 f0 (k - f0)) angle speed k ≤ H) ∧
      (animate_confetti W H angle speed x y0 f0 < 200 →
         H < confetti_new_y
               (confettiYFrom angle speed y0 f0
                 (animate_confetti W H angle speed x y0 f0 - f0))
               angle speed (animate_confetti W H angle speed x y0 f0)) := by
  intro n
  induction n with
  | zero =>
      intro f0 hn x y0 hf0
      have hf : f0 = 200 := by omega
      rw [animate_confetti.eq_def, if_neg (by omega)]
      refine ⟨le_refl f0, by omega, ?_, ?_⟩
      · intro k hk1 hk2
        omega
      · intro hr
        omega
  | succ n ih =>
      intro f0 hn x y0 hf0
      rw [animate_confetti.eq_def, if_pos (show f0 < 200 from by omega)]
      by_cases hy : H < confetti_new_y y0 angle speed f0
      · rw [if_pos hy]
        refine ⟨le_refl f0, by omega, ?_, ?_⟩
        · intro k hk1 hk2
          omega
        · intro hr
          rw [Nat.sub_self]
          exact hy
      · rw [if_neg hy]
        obtain ⟨ih1, ih2, ih3, ih4⟩ :=
          ih (f0 + 1) (by omega) (confetti_new_x W x angle speed f0)
            (confetti_new_y y0 angle speed f0) (by omega)
        refine ⟨by omega, ih2, ?_, ?_⟩
        · intro k hk1 hk2
          rcases Nat.eq_or_lt_of_le hk1 with heq | hlt
          · subst heq
            rw [Nat.sub_self]
            exact le_of_not_lt hy
          · have h3 := ih3 k (by omega) hk2
            rw [confettiYFrom_shift,
                show k - (f0 + 1) + 1 = k - f0 from by omega] at h3
            exact h3
        · intro hr
          have h4 := ih4 hr
          rw [confettiYFrom_shift,
              show animate_confetti W H angle speed (confetti_new_x W x angle speed f0)
                    (confetti_new_y y0 angle speed f0) (f0 + 1) - (f0 + 1) + 1
                  = animate_confetti W H angle speed (confetti_new_x W x angle speed f0)
                      (confetti_new_y y0 angle speed f0) (f0 + 1) - f0
                from by omega] at h4
          exact h4

/-! ## Claim theorems -/

/-- Claim C1 fails on the code: `hit_mole` never sets `self.mole_button` to
`None`, so in a started Classic session whose first mole has finished
appearing, two consecutive clicks on the mole cell both satisfy
`clicked_button == self.mole_button` and the score reaches 2 although only
one target was ever spawned (`randIdx = 1`); the reference is still set
after both hits. -/
theorem classic_double_score_single_spawn :
    (crun crand (classicStart crand)
        [CEv.fire, CEv.fire, CEv.fire, CEv.click (0, 0), CEv.click (0, 0)]).score = 2 ∧
    (crun crand (classicStart crand)
        [CEv.fire, CEv.fire, CEv.fire, CEv.click (0, 0), CEv.click (0, 0)]).randIdx = 1 ∧
    (crun crand (classicStart crand)
        [CEv.fire, CEv.fire, CEv.fire, CEv.click (0, 0), CEv.click (0, 0)]).moleButton
      = some (0, 0) := by
  decide

/-- Claim C2 fails on the code: after a hit, `hit_mole` stores one
rescheduled `spawn_mole` task while the disappear animation it started
independently schedules another anonymous `spawn_mole` call at its end, so
the scheduler reaches a state with two pending next-spawn tasks. -/
theorem classic_two_pending_spawn_tasks :
    spawnTasks (crun crand (classicStart crand)
        [CEv.fire, CEv.fire, CEv.fire, CEv.click (0, 0),
         CEv.fire, CEv.fire, CEv.fire, CEv.fire, CEv.fire]).pending = 2 := by
  decide

/-- Claim C3 fails as stated: pausing during the appear
animation of the first mole cancels the stored timer and spawn handles but not the anonymous
appear-frame callback, which then fires while the session is still paused
and registers a fresh scheduled task (the handle counter grows and the next
appear frame is pending). -/
theorem anim_callback_fires_while_paused :
    (crun crand (classicStart crand) [CEv.pauseBtn]).paused = true ∧
    (crun crand (classicStart crand) [CEv.pauseBtn, CEv.fire]).paused = true ∧
    (crun crand (classicStart crand) [CEv.pauseBtn, CEv.fire]).nextId
      = (crun crand (classicStart crand) [CEv.pauseBtn]).nextId + 1 ∧
    (crun crand (classicStart crand) [CEv.pauseBtn, CEv.fire]).pending
      = [⟨3, 200, CCb.appear (0, 0) 2⟩] := by
  decide

/-- Claim C3 (amended): after `pause()` and until `resume()`, any elapse of
simulated time leaves score, `time_left` and the paused flag unchanged, in
both modes: every callback that fires while paused (ticks and spawns in
particular) has no effect on score or `time_left`, and `spawn_mole` /
`spawn_silver_mole` invoked while paused return the state unchanged.
(In-flight animation callbacks may still fire and schedule further tasks,
as the counterexample shows.) -/
theorem paused_preserves_score_time :
    (∀ (rand : ℕ → Cell) (s : CState), s.paused = true →
       (fireNext rand s).score = s.score ∧ (fireNext rand s).timeLeft = s.timeLeft ∧
       (fireNext rand s).paused = true ∧ spawn_mole rand s = s) ∧
    (∀ (rand : ℕ → Slot) (s : SState), s.paused = true →
       (fireNextS rand s).score = s.score ∧ (fireNextS rand s).timeLeft = s.timeLeft ∧
       (fireNextS rand s).paused = true ∧ spawn_silver_mole rand s = s) := by
  constructor
  · intro rand s h
    have hv := coreView_fireNext_paused rand s h
    have h1 : (fireNext rand s).score = s.score := congrArg (fun p => p.1) hv
    have h2 : (fireNext rand s).timeLeft = s.timeLeft :=
      congrArg (fun p => p.2.1) hv
    have h3 : (fireNext rand s).paused = s.paused :=
      congrArg (fun p => p.2.2) hv
    exact ⟨h1, h2, h3.trans h, spawn_mole_paused rand s h⟩
  · intro rand s h
    obtain ⟨hv, hp⟩ := silver_fireNext_paused rand s h
    exact ⟨congrArg (fun p => p.1) hv, congrArg (fun p => p.2) hv, hp,
      spawn_silver_paused rand s h⟩

/-- Witness for the amended Claim C3 at two reachable paused sessions. -/
theorem paused_preserves_score_time_witness :
    cPausedSample.paused = true ∧
    (fireNext crand cPausedSample).score = cPausedSample.score ∧
    (fireNext crand cPausedSample).timeLeft = cPausedSample.timeLeft ∧
    (fireNext crand cPausedSample).paused = true ∧
    sPausedSample.paused = true ∧
    (fireNextS srand sPausedSample).score = sPausedSample.score ∧
    (fireNextS srand sPausedSample).timeLeft = sPausedSample.timeLeft ∧
    (fireNextS srand sPausedSample).paused = true := by
  have hc := paused_preserves_score_time.1 crand cPausedSample (by decide)
  have hs := paused_preserves_score_time.2 srand sPausedSample (by decide)
  exact ⟨by decide, hc.1, hc.2.1, hc.2.2.1, by decide, hs.1, hs.2.1, hs.2.2.1⟩

/-- Claim C4 fails on the code: `reset_game` cancels only the stored
`timer_task` and `mole_task` handles; the anonymous `spawn_mole` callback
registered by the end of a disappear animation survives the reset (one
pending spawn task remains), and when simulated time then elapses it fires
against the reset state (`paused = False`, `time_left = 30`) and spawns a
mole — a state change between `reset()` and `start()`. -/
theorem mole_spawns_after_reset :
    (crun crand (classicStart crand)
        [CEv.fire, CEv.fire, CEv.fire, CEv.fire, CEv.fire, CEv.fire, CEv.fire,
         CEv.fire, CEv.resetBtn]).timeLeft = GAME_DURATION ∧
    (crun crand (classicStart crand)
        [CEv.fire, CEv.fire, CEv.fire, CEv.fire, CEv.fire, CEv.fire, CEv.fire,
         CEv.fire, CEv.resetBtn]).score = 0 ∧
    (crun crand (classicStart crand)
        [CEv.fire, CEv.fire, CEv.fire, CEv.fire, CEv.fire, CEv.fire, CEv.fire,
         CEv.fire, CEv.resetBtn]).moleButton = none ∧
    spawnTasks (crun crand (classicStart crand)
        [CEv.fire, CEv.fire, CEv.fire, CEv.fire, CEv.fire, CEv.fire, CEv.fire,
         CEv.fire, CEv.resetBtn]).pending = 1 ∧
    (crun crand (classicStart crand)
        [CEv.fire, CEv.fire, CEv.fire, CEv.fire, CEv.fire, CEv.fire, CEv.fire,
         CEv.fire, CEv.resetBtn, CEv.fire]).moleButton = some (0, 0) ∧
    (crun crand (classicStart crand)
        [CEv.fire, CEv.fire, CEv.fire, CEv.fire, CEv.fire, CEv.fire, CEv.fire,
         CEv.fire, CEv.resetBtn, CEv.fire]).randIdx = 2 := by
  decide

/-- Claim C8 fails on the code: one Silver round (in a session where the
difficulty StringVar exists, so `save_settings` itself succeeds), replayed
end to end, ends with `end_silver_game` beating the empty record and calling
`celebrate_high_score`, whose first statement reads the never-assigned
attribute `self.celebration_sound` and raises `AttributeError` — the round
ends with an uncaught exception instead of a silent no-op.  (A fresh
Silver-only session raises even earlier on that path, inside
`save_settings`, which is the persistence finding reported separately.) -/
theorem silver_celebration_raises :
    (srun srand (silverStart srand) silverRoundEvs).raised = true ∧
    (srun srand (silverStart srand) silverRoundEvs).celebrationsInvoked = 1 ∧
    (srun srand (silverStart srand) silverRoundEvs).score = 1 ∧
    (srun srand (silverStart srand) silverRoundEvs).highScores.silver = 1 ∧
    (srun srand (silverStart srand) silverRoundEvs).timeLeft = 0 := by
  decide

/-- Claim C5 fails on the code in Silver mode: in a fresh Silver-only
session (score 7 against a recorded best of 5), `end_silver_game` updates
the in-memory record but its `save_settings` call raises `AttributeError`
reading the never-assigned `self.difficulty` before anything is written, and
`celebrate_high_score` is never invoked.  When the difficulty StringVar does
exist, the record is persisted and the celebration routine is invoked
exactly once; a non-beating score (4 against 5) leaves records, the
persisted snapshot, and the celebration count untouched; and Classic mode
behaves exactly as the claim states (record updated to 7, persisted,
exactly one celebration task scheduled; or everything unchanged). -/
theorem silver_highscore_not_persisted :
    (end_silver_game sEndBeat).highScores.silver = 7 ∧
    (end_silver_game sEndBeat).raised = true ∧
    (end_silver_game sEndBeat).persists = 0 ∧
    (end_silver_game sEndBeat).persistedScores = sEndBeat.persistedScores ∧
    (end_silver_game sEndBeat).celebrationsInvoked = 0 ∧
    (end_silver_game sEndBeatSettled).highScores.silver = 7 ∧
    (end_silver_game sEndBeatSettled).persists = 1 ∧
    (end_silver_game sEndBeatSettled).persistedScores.silver = 7 ∧
    (end_silver_game sEndBeatSettled).celebrationsInvoked = 1 ∧
    (end_silver_game sEndMiss).highScores = sEndMiss.highScores ∧
    (end_silver_game sEndMiss).persists = 0 ∧
    (end_silver_game sEndMiss).celebrationsInvoked = 0 ∧
    (end_silver_game sEndMiss).raised = false ∧
    (end_game cEndBeat).highScores.get cEndBeat.difficulty = 7 ∧
    (end_game cEndBeat).persistedScores.get cEndBeat.difficulty = 7 ∧
    celebrateTasks (end_game cEndBeat).pending = 1 ∧
    (end_game cEndMiss).highScores = cEndMiss.highScores ∧
    (end_game cEndMiss).persists = 0 ∧
    celebrateTasks (end_game cEndMiss).pending = 0 := by
  decide

/-- Claim C6: in both modes, a tick that runs while unpaused with
`time_left > 0` decrements `time_left` by exactly 1 and schedules exactly
one next tick due 1000ms later (Classic first cancels the stored handle);
a tick that runs while unpaused with `time_left = 0` is exactly the
end-of-round transition and schedules nothing. -/
theorem tick_contract :
    ∀ (sc : CState) (ss : SState),
      (sc.paused = false → 0 < sc.timeLeft →
         (update_timer sc).timeLeft = sc.timeLeft - 1 ∧
         (update_timer sc).pending
           = (cancelTaskOpt sc.timerTask sc).pending
               ++ [⟨sc.nextId, sc.now + 1000, CCb.updateTimer⟩] ∧
         (update_timer sc).timerTask = some sc.nextId) ∧
      (sc.paused = false → sc.timeLeft = 0 →
         update_timer sc = end_game sc ∧
         tickTasksC (update_timer sc).pending = tickTasksC sc.pending) ∧
      (ss.paused = false → 0 < ss.timeLeft →
         (update_silver_timer ss).timeLeft = ss.timeLeft - 1 ∧
         (update_silver_timer ss).pending
           = ss.pending ++ [⟨ss.nextId, ss.now + 1000, SCb.tick⟩]) ∧
      (ss.paused = false → ss.timeLeft = 0 →
         update_silver_timer ss = end_silver_game ss ∧
         (end_silver_game ss).pending = ss.pending) := by
  intro sc ss
  refine ⟨?_, ?_, ?_, ?_⟩
  · intro h1 h2
    unfold update_timer
    rw [if_pos ⟨h1, h2⟩]
    rcases ht : sc.timerTask with _ | t <;>
      simp [cancelTaskOpt, afterCancel, after, ht]
  · intro h1 h0
    have e : update_timer sc = end_game sc := by
      unfold update_timer
      rw [if_neg (fun hc => absurd hc.2 (by omega)), if_pos h0]
    exact ⟨e, by rw [e]; exact tickTasksC_end_game sc⟩
  · intro h1 h2
    unfold update_silver_timer
    rw [if_pos ⟨h1, h2⟩]
    exact ⟨rfl, rfl⟩
  · intro h1 h0
    have e : update_silver_timer ss = end_silver_game ss := by
      unfold update_silver_timer
      rw [if_neg (fun hc => absurd hc.2 (by omega)), if_pos h0]
    exact ⟨e, end_silver_pending ss⟩

/-- Witness for Claim C6 at a freshly started session of each mode and at a
session of each mode whose clock has run out. -/
theorem tick_contract_witness :
    (update_timer (classicStart crand)).timeLeft = 28 ∧
    (update_timer (classicStart crand)).timerTask = some (classicStart crand).nextId ∧
    update_timer cTimeUp = end_game cTimeUp ∧
    (update_silver_timer (silverStart srand)).timeLeft = 28 ∧
    update_silver_timer sTimeUp = end_silver_game sTimeUp := by
  have hc := (tick_contract (classicStart crand) (silverStart srand)).1
    (by decide) (by decide)
  have hc0 := (tick_contract cTimeUp sTimeUp).2.1 (by decide) (by decide)
  have hs := (tick_contract (classicStart crand) (silverStart srand)).2.2.1
    (by decide) (by decide)
  have hs0 := (tick_contract cTimeUp sTimeUp).2.2.2 (by decide) (by decide)
  exact ⟨hc.1, hc.2.2, hc0.1, hs.1, hs0.1⟩

/-- Claim C9: resuming calls the timer callback synchronously instead of
scheduling it, in both modes: with time left, the state immediately after
`resume` has `time_left` decremented by 1 with no simulated time elapsed
(`now` unchanged); hence a pause immediately followed by a resume costs one
second of round time. -/
theorem resume_ticks_immediately :
    ∀ (rand : ℕ → Cell) (rs : ℕ → Slot) (sc : CState) (ss : SState),
      (sc.paused = true → 0 < sc.timeLeft →
         (resume_game rand sc).timeLeft = sc.timeLeft - 1 ∧
         (resume_game rand sc).now = sc.now ∧
         (resume_game rand sc).paused = false) ∧
      (sc.paused = false → 0 < sc.timeLeft →
         (resume_game rand (pause_game sc)).timeLeft = sc.timeLeft - 1) ∧
      (ss.paused = true → 0 < ss.timeLeft →
         (pause_silver_game rs ss).timeLeft = ss.timeLeft - 1 ∧
         (pause_silver_game rs ss).now = ss.now ∧
         (pause_silver_game rs ss).paused = false) ∧
      (ss.paused = false → 0 < ss.timeLeft →
         (pause_silver_game rs (pause_silver_game rs ss)).timeLeft
           = ss.timeLeft - 1) := by
  intro rand rs sc ss
  have classic_resume : ∀ (u : CState), u.paused = true → 0 < u.timeLeft →
      (resume_game rand u).timeLeft = u.timeLeft - 1 ∧
      (resume_game rand u).now = u.now ∧
      (resume_game rand u).paused = false := by
    intro u h htl
    unfold resume_game
    rw [if_pos h]
    obtain ⟨e1, e2, e3⟩ :=
      update_timer_run { u with paused := false, pauseButtonResume := false } rfl htl
    refine ⟨?_, ?_, ?_⟩
    · rw [timeLeft_spawn_mole, e1]
    · rw [now_spawn_mole, e2]
    · rw [paused_spawn_mole, e3]
  have silver_resume : ∀ (u : SState), u.paused = true → 0 < u.timeLeft →
      (pause_silver_game rs u).timeLeft = u.timeLeft - 1 ∧
      (pause_silver_game rs u).now = u.now ∧
      (pause_silver_game rs u).paused = false := by
    intro u h htl
    unfold pause_silver_game
    rw [if_neg (by rw [h]; exact fun hc => by cases hc)]
    obtain ⟨e1, e2, e3⟩ := silver_tick_run { u with paused := false } rfl htl
    refine ⟨?_, ?_, ?_⟩
    · rw [timeLeft_spawn_silver, e1]
    · rw [now_spawn_silver, e2]
    · rw [paused_spawn_silver, e3]
  refine ⟨classic_resume sc, ?_, silver_resume ss, ?_⟩
  · intro h htl
    obtain ⟨p1, p2, p3⟩ := pause_game_run sc htl
    have := classic_resume (pause_game sc) p1 (by rw [p2]; exact htl)
    rw [this.1, p2]
  · intro h htl
    have hp : pause_silver_game rs ss = { ss with paused := true } := by
      unfold pause_silver_game
      rw [if_pos h]
    have := silver_resume (pause_silver_game rs ss) (by rw [hp]) (by rw [hp]; exact htl)
    rw [this.1, hp]

/-- Witness for Claim C9 at reachable paused and running sessions of both
modes. -/
theorem resume_ticks_immediately_witness :
    (resume_game crand cPausedSample).timeLeft = cPausedSample.timeLeft - 1 ∧
    (resume_game crand (pause_game (classicStart crand))).timeLeft = 28 ∧
    (pause_silver_game srand sPausedSample).timeLeft = sPausedSample.timeLeft - 1 ∧
    (pause_silver_game srand (pause_silver_game srand (silverStart srand))).timeLeft
      = 28 := by
  have h := resume_ticks_immediately crand srand (classicStart crand) (silverStart srand)
  have hp := resume_ticks_immediately crand srand cPausedSample sPausedSample
  exact ⟨(hp.1 (by decide) (by decide)).1, h.2.1 (by decide) (by decide),
    (hp.2.2.1 (by decide) (by decide)).1, h.2.2.2 (by decide) (by decide)⟩

/-- Claim C7: a Silver session starts at level 1 with lifetime 1500ms; in
every state reachable from the start of the session, the lifetime equals
`max 500 (1500 - 100·(level-1))` ms, hence is at least 500ms; and a hit in
such a state increments the score by 1, increments the level by exactly 1
when that brings the score to a multiple of 10 (the lifetime then drops by
100ms with a 500ms floor, never increasing), and otherwise leaves level and
lifetime unchanged. -/
theorem silver_level_lifetime :
    ∀ (rand : ℕ → Slot) (evs : List SEv) (m : Slot) (s : SState),
      s = srun rand (silverStart rand) evs →
      ((silverStart rand).level = 1 ∧ (silverStart rand).moleTime = 1500) ∧
      (1 ≤ s.level ∧ s.moleTime = max 500 (1500 - 100 * (s.level - 1)) ∧
       500 ≤ s.moleTime) ∧
      (s.paused = false → 0 < s.timeLeft →
         (hit_silver_mole m s).score = s.score + 1 ∧
         ((s.score + 1) % 10 = 0 →
            (hit_silver_mole m s).level = s.level + 1 ∧
            (hit_silver_mole m s).moleTime = max 500 (s.moleTime - 100) ∧
            (hit_silver_mole m s).moleTime ≤ s.moleTime) ∧
         ((s.score + 1) % 10 ≠ 0 →
            (hit_silver_mole m s).level = s.level ∧
            (hit_silver_mole m s).moleTime = s.moleTime)) := by
  intro rand evs m s hs
  have hstartinv : sinv (silverStart rand) := sinv_start rand silverInit0
  have hinv : sinv s := by
    rw [hs]
    exact sinv_srun rand evs (silverStart rand) hstartinv
  have lstart : lvlView (silverStart rand) = (1, 1500) := by
    show lvlView (start_silver_game rand silverInit0) = (1, 1500)
    unfold start_silver_game
    rw [lvlView_spawn, lvlView_tick]
    rfl
  obtain ⟨hl, hm⟩ := hinv
  have hfloor : 500 ≤ s.moleTime := by rw [hm]; exact le_max_left 500 _
  refine ⟨⟨congrArg (fun p => p.1) lstart, congrArg (fun p => p.2) lstart⟩,
    ⟨hl, hm, hfloor⟩, ?_⟩
  intro hp htl
  have elvl : (animate_silver_disappear m 3 { s with score := s.score + 1 }).level
      = s.level := congrArg (fun p => p.1) (lvlView_disappear m 3 _)
  have emole : (animate_silver_disappear m 3 { s with score := s.score + 1 }).moleTime
      = s.moleTime := congrArg (fun p => p.2) (lvlView_disappear m 3 _)
  have escore : (animate_silver_disappear m 3 { s with score := s.score + 1 }).score
      = s.score + 1 :=
    congrArg (fun p => p.1) (sview_disappear m 3 { s with score := s.score + 1 })
  unfold hit_silver_mole
  rw [if_pos ⟨hp, htl⟩]
  dsimp only
  refine ⟨?_, ?_, ?_⟩
  · split
    · rename_i h10
      show (animate_silver_disappear m 3 { s with score := s.score + 1 }).score
          = s.score + 1
      exact escore
    · exact escore
  · intro h10
    split
    · simp only [level_up]
      refine ⟨by rw [elvl], by rw [emole], ?_⟩
      rw [emole]
      omega
    · rename_i hno
      rw [escore] at hno
      exact absurd h10 hno
  · intro h10
    split
    · rename_i hyes
      rw [escore] at hyes
      exact absurd hyes h10
    · exact ⟨elvl, emole⟩

/-- Witness for Claim C7: the freshly started Silver session (level 1,
lifetime 1500ms) and a hit there (score becomes 1, not a multiple of 10, so
level and lifetime are unchanged). -/
theorem silver_level_lifetime_witness :
    (silverStart srand).level = 1 ∧ (silverStart srand).moleTime = 1500 ∧
    500 ≤ (silverStart srand).moleTime ∧
    (hit_silver_mole 0 (silverStart srand)).score = (silverStart srand).score + 1 ∧
    (hit_silver_mole 0 (silverStart srand)).level = (silverStart srand).level ∧
    (hit_silver_mole 0 (silverStart srand)).moleTime = (silverStart srand).moleTime := by
  have h := silver_level_lifetime srand [] 0 (silverStart srand) rfl
  have hhit := h.2.2 (by decide) (by decide)
  have hne := hhit.2.2 (by decide)
  exact ⟨h.1.1, h.1.2, h.2.1.2.2, hhit.1, hne.1, hne.2⟩

/-- Claim C10: the celebration creates exactly 200 particles, each starting
on the bottom edge with (oracle-ranged) angle in `[-π/2, π/2]`, speed in
`[10, 20]` and size in `[5, 15]`; frame `f` maps `(x, y)` to
`x' = (x + speed·cos(angle)·sin(f·0.1)) mod W` and
`y' = y - speed·sin(angle)·f + 0.5·f^1.5`; and the animation of a particle,
started at any frame `f0 ≤ 200`, stops at a frame between `f0` and 200,
before the 200-frame ceiling exactly when the newly computed `y'` first
exceeds the viewport height `H` (the computed `y'` of every earlier frame along the
trajectory stayed at or below `H`). -/
theorem confetti_contract (H : ℝ) (draw : ℕ → ConfettiDraw)
    (hdraw : ∀ i, (draw i).angle ∈ Set.Icc (-(Real.pi / 2)) (Real.pi / 2) ∧
                  (draw i).speed ∈ Set.Icc (10 : ℝ) 20 ∧
                  5 ≤ (draw i).size ∧ (draw i).size ≤ 15) :
    (celebrate_confetti H draw).length = 200 ∧
    (∀ p ∈ celebrate_confetti H draw,
        p.y = H ∧ p.angle ∈ Set.Icc (-(Real.pi / 2)) (Real.pi / 2) ∧
        p.speed ∈ Set.Icc (10 : ℝ) 20 ∧ 5 ≤ p.size ∧ p.size ≤ 15) ∧
    (∀ (W x y angle speed : ℝ) (f : ℕ),
        confetti_new_x W x angle speed f
          = pymod (x + speed * Real.cos angle * Real.sin ((f : ℝ) * 0.1)) W ∧
        confetti_new_y y angle speed f
          = y - speed * Real.sin angle * (f : ℝ) + 0.5 * (f : ℝ) ^ (1.5 : ℝ)) ∧
    (∀ (W x y0 angle speed : ℝ) (f0 : ℕ), f0 ≤ 200 →
        f0 ≤ animate_confetti W H angle speed x y0 f0 ∧
        animate_confetti W H angle speed x y0 f0 ≤ 200 ∧
        (∀ k, f0 ≤ k → k < animate_confetti W H angle speed x y0 f0 →
           confetti_new_y (confettiYFrom angle speed y0 f0 (k - f0)) angle speed k
             ≤ H) ∧
        (animate_confetti W H angle speed x y0 f0 < 200 →
           H < confetti_new_y
                 (confettiYFrom angle speed y0 f0
                   (animate_confetti W H angle speed x y0 f0 - f0))
                 angle speed (animate_confetti W H angle speed x y0 f0))) := by
  refine ⟨?_, ?_, ?_, ?_⟩
  · simp [celebrate_confetti]
  · intro p hp
    rcases List.mem_map.mp hp with ⟨i, hi, rfl⟩
    exact ⟨rfl, (hdraw i).1, (hdraw i).2.1, (hdraw i).2.2.1, (hdraw i).2.2.2⟩
  · intro W x y angle speed f
    exact ⟨rfl, rfl⟩
  · intro W x y0 angle speed f0 hf0
    exact animate_confetti_char W H angle speed (200 - f0) f0 rfl x y0 hf0

/-- Witness for Claim C10 with the constant draw oracle (angle 0, speed 12,
size 10): 200 particles are created and an animation started at frame 0
stops no later than frame 200. -/
theorem confetti_contract_witness :
    (celebrate_confetti 0 drawSample).length = 200 ∧
    0 ≤ animate_confetti 400 0 0 12 0 0 0 ∧
    animate_confetti 400 0 0 12 0 0 0 ≤ 200 := by
  have hdraw : ∀ i, (drawSample i).angle ∈ Set.Icc (-(Real.pi / 2)) (Real.pi / 2) ∧
      (drawSample i).speed ∈ Set.Icc (10 : ℝ) 20 ∧
      5 ≤ (drawSample i).size ∧ (drawSample i).size ≤ 15 := by
    intro i
    refine ⟨Set.mem_Icc.mpr ⟨?_, ?_⟩,
      Set.mem_Icc.mpr ⟨by show (10 : ℝ) ≤ 12; norm_num, by show (12 : ℝ) ≤ 20; norm_num⟩,
      by show 5 ≤ 10; norm_num, by show 10 ≤ 15; norm_num⟩
    · show -(Real.pi / 2) ≤ (0 : ℝ)
      have := Real.pi_pos
      linarith
    · show (0 : ℝ) ≤ Real.pi / 2
      have := Real.pi_pos
      linarith
  have h := confetti_contract 0 drawSample hdraw
  have h4 := h.2.2.2 400 0 0 0 12 0 (by norm_num)
  exact ⟨h.1, h4.1, h4.2.1⟩

end Whack
